import Mathlib

/-!
Verification of the websocket greeter in `src/app.py`.

The source is a single async endpoint:

  async def root(ws: WebSocket):
      await ws.accept()
      while True:
          await ws.send_text("Hello!")
          print("Hello!")
          received = await ws.receive_text()
          print(received)

We embed it as a fuel-indexed run over a peer environment `Env` that fixes,
for each loop iteration, the outcome of the awaited send and receive calls
(success, graceful close, transport failure, or — for the receive — a message
that never arrives, i.e. the await stays suspended).  The run produces the
exact interleaved trace of wire operations (`ws.send_text`, `ws.receive_text`)
and log events (the two `print` calls), plus the final status of the task.
An unhandled exception from an awaited call aborts the coroutine at that
point, so a failing operation is the last action of the trace.
-/

/-- The two exception classes a send or receive can raise: the peer closed
the channel (WebSocketDisconnect), or any other I/O failure. -/
inductive Fail
  | connectionClosed
  | transportError
deriving DecidableEq, Repr

/-- Outcome of one `await ws.receive_text()`: a delivered message, a raised
failure, or no message ever arriving (the await suspends forever). -/
inductive RecvRes
  | ok (s : String)
  | fail (f : Fail)
  | pending
deriving DecidableEq, Repr

/-- The peer/transport environment of one run of `root`: whether the accept
handshake succeeds, and the outcome of the send and the receive of each
iteration `i` of the `while True` loop. -/
structure Env where
  acceptOk : Bool
  sendOutcome : Nat → Option Fail
  recvOutcome : Nat → RecvRes

/-- One observable action of the handler: a wire send attempt with its
result, the log line printed after a successful send, a wire receive attempt
with its result, and the log line printed after a successful receive.
These are the only effects the body of `root` performs. -/
inductive Act
  | wireSend (s : String) (r : Option Fail)
  | logSent (s : String)
  | wireRecv (r : RecvRes)
  | logReceived (s : String)
deriving DecidableEq, Repr

/-- Final status of the handler task: still looping (fuel exhausted),
handshake rejected at `accept`, terminated by peer close, terminated by a
transport failure, or suspended forever on a receive that never completes. -/
inductive Outcome
  | running
  | handshakeFailed
  | closed
  | transportError
  | waitingRecv
deriving DecidableEq, Repr

/-- The task status produced by an unhandled failure. -/
def Fail.toOutcome : Fail → Outcome
  | .connectionClosed => .closed
  | .transportError => .transportError

/-- The `while True` body of `root`, starting at iteration `i` with `fuel`
iterations of budget.  Each iteration awaits `ws.send_text("Hello!")`,
prints `"Hello!"`, awaits `ws.receive_text()`, prints the received text;
a raised exception ends the trace at the failing operation. -/
def loop (env : Env) : Nat → Nat → List Act × Outcome
  | _, 0 => ([], .running)
  | i, fuel + 1 =>
    match env.sendOutcome i with
    | some f => ([.wireSend "Hello!" (some f)], f.toOutcome)
    | none =>
      match env.recvOutcome i with
      | .fail f =>
          ([.wireSend "Hello!" none, .logSent "Hello!", .wireRecv (.fail f)],
           f.toOutcome)
      | .pending =>
          ([.wireSend "Hello!" none, .logSent "Hello!", .wireRecv .pending],
           .waitingRecv)
      | .ok s =>
          let rest := loop env (i + 1) fuel
          (.wireSend "Hello!" none :: .logSent "Hello!" ::
             .wireRecv (.ok s) :: .logReceived s :: rest.1,
           rest.2)

/-- The endpoint `root`: `await ws.accept()`, then the loop.  A rejected
handshake raises before the loop body runs, so the trace is empty. -/
def root (env : Env) (fuel : Nat) : List Act × Outcome :=
  if env.acceptOk then loop env 0 fuel else ([], .handshakeFailed)

/-- Direction of an event: a send-side event or a receive-side event. -/
inductive Kind
  | s
  | r
deriving DecidableEq, Repr

/-- A kind sequence alternates, the first element being the given kind. -/
def alt : Kind → List Kind → Bool
  | _, [] => true
  | .s, .s :: rest => alt .r rest
  | .r, .r :: rest => alt .s rest
  | _, _ => false

/-- Directions of the wire operations of a trace, logs dropped. -/
def wireKinds : List Act → List Kind
  | [] => []
  | .wireSend _ _ :: rest => .s :: wireKinds rest
  | .wireRecv _ :: rest => .r :: wireKinds rest
  | _ :: rest => wireKinds rest

/-- Directions of the log events of a trace, wire operations dropped. -/
def logKinds : List Act → List Kind
  | [] => []
  | .logSent _ :: rest => .s :: logKinds rest
  | .logReceived _ :: rest => .r :: logKinds rest
  | _ :: rest => logKinds rest

/-- Contents of every outbound wire message and of every sent-log line. -/
def sentContents : List Act → List String
  | [] => []
  | .wireSend s _ :: rest => s :: sentContents rest
  | .logSent s :: rest => s :: sentContents rest
  | _ :: rest => sentContents rest

/-- Contents of the received-log lines, in order. -/
def recvLogContents : List Act → List String
  | [] => []
  | .logReceived s :: rest => s :: recvLogContents rest
  | _ :: rest => recvLogContents rest

/-- Whether an action is a wire operation that raised a failure. -/
def failedAction : Act → Bool
  | .wireSend _ (some _) => true
  | .wireRecv (.fail _) => true
  | _ => false

/-- Every action of the list except possibly the final one succeeded. -/
def cleanExceptLast : List Act → Bool
  | [] => true
  | [_] => true
  | a :: rest => !failedAction a && cleanExceptLast rest

/-- Number of sent-log lines in a trace. -/
def countLogSent : List Act → Nat
  | [] => 0
  | .logSent _ :: rest => countLogSent rest + 1
  | _ :: rest => countLogSent rest

/-- Number of successful wire sends in a trace. -/
def countWireSendOk : List Act → Nat
  | [] => 0
  | .wireSend _ none :: rest => countWireSendOk rest + 1
  | _ :: rest => countWireSendOk rest

/-- Number of received-log lines in a trace. -/
def countLogReceived : List Act → Nat
  | [] => 0
  | .logReceived _ :: rest => countLogReceived rest + 1
  | _ :: rest => countLogReceived rest

/-- Number of successful wire receives in a trace. -/
def countWireRecvOk : List Act → Nat
  | [] => 0
  | .wireRecv (.ok _) :: rest => countWireRecvOk rest + 1
  | _ :: rest => countWireRecvOk rest

/-- A peer that always answers with the text `"ping"` and never fails. -/
def envAll : Env := ⟨true, fun _ => none, fun _ => .ok "ping"⟩

/-- A peer whose upgrade handshake is rejected. -/
def envRejected : Env := ⟨false, fun _ => none, fun _ => .ok "ping"⟩

/-- A peer that accepts the upgrade and then never sends anything. -/
def envSilent : Env := ⟨true, fun _ => none, fun _ => .pending⟩

/-- A peer extensionally equal to `envAll`, written differently. -/
def envAllB : Env :=
  ⟨true,
   fun i => if i + 1 = 0 then some .transportError else none,
   fun i => if i + 1 = 0 then .pending else .ok "ping"⟩

/-- The log events of any stretch of the loop alternate starting with a
sent event. -/
lemma loop_logKinds_alt (env : Env) :
    ∀ fuel i, alt Kind.s (logKinds (loop env i fuel).1) = true := by
  intro fuel
  induction fuel with
  | zero => intro i; simp [loop, logKinds, alt]
  | succ n ih =>
    intro i
    cases hs : env.sendOutcome i with
    | some f => simp [loop, hs, logKinds, alt]
    | none =>
      cases hr : env.recvOutcome i with
      | fail f => simp [loop, hs, hr, logKinds, alt]
      | pending => simp [loop, hs, hr, logKinds, alt]
      | ok s =>
        simpa [loop, hs, hr, logKinds, alt] using ih (i + 1)

/-- The wire operations of any stretch of the loop alternate starting with
a send. -/
lemma loop_wireKinds_alt (env : Env) :
    ∀ fuel i, alt Kind.s (wireKinds (loop env i fuel).1) = true := by
  intro fuel
  induction fuel with
  | zero => intro i; simp [loop, wireKinds, alt]
  | succ n ih =>
    intro i
    cases hs : env.sendOutcome i with
    | some f => simp [loop, hs, wireKinds, alt]
    | none =>
      cases hr : env.recvOutcome i with
      | fail f => simp [loop, hs, hr, wireKinds, alt]
      | pending => simp [loop, hs, hr, wireKinds, alt]
      | ok s =>
        simpa [loop, hs, hr, wireKinds, alt] using ih (i + 1)

/-- Every outbound wire message and every sent-log line of any stretch of
the loop carries the text `"Hello!"`. -/
lemma loop_sentContents_hello (env : Env) :
    ∀ fuel i,
      ((sentContents (loop env i fuel).1).all fun x => x == "Hello!") = true := by
  intro fuel
  induction fuel with
  | zero => intro i; simp [loop, sentContents]
  | succ n ih =>
    intro i
    cases hs : env.sendOutcome i with
    | some f => simp [loop, hs, sentContents]
    | none =>
      cases hr : env.recvOutcome i with
      | fail f => simp [loop, hs, hr, sentContents]
      | pending => simp [loop, hs, hr, sentContents]
      | ok s =>
        simpa [loop, hs, hr, sentContents] using ih (i + 1)

/-- The k-th received-log line of a stretch of the loop starting at
iteration `i` is exactly the message the peer delivered at turn `i + k`. -/
lemma loop_recvLog_fidelity (env : Env) :
    ∀ fuel i k s,
      (recvLogContents (loop env i fuel).1).get? k = some s →
      env.recvOutcome (i + k) = .ok s := by
  intro fuel
  induction fuel with
  | zero => intro i k s h; simp [loop, recvLogContents] at h
  | succ n ih =>
    intro i k s h
    cases hs : env.sendOutcome i with
    | some f => simp [loop, hs, recvLogContents] at h
    | none =>
      cases hr : env.recvOutcome i with
      | fail f => simp [loop, hs, hr, recvLogContents] at h
      | pending => simp [loop, hs, hr, recvLogContents] at h
      | ok m =>
        simp only [loop, hs, hr, recvLogContents] at h
        cases k with
        | zero =>
          simp at h
          subst h
          simpa using hr
        | succ k =>
          simp only [List.get?_cons_succ] at h
          have := ih (i + 1) k s h
          simpa [Nat.add_assoc, Nat.add_comm 1 k] using this

/-- Consing a successful action does not change whether the remainder is
clean except for its final element. -/
lemma cleanExceptLast_cons (a : Act) (l : List Act)
    (h : failedAction a = false) :
    cleanExceptLast (a :: l) = cleanExceptLast l := by
  cases l with
  | nil => simp [cleanExceptLast]
  | cons b rest => simp [cleanExceptLast, h]

/-- In any stretch of the loop, only the final action can be a failed
wire operation. -/
lemma loop_cleanExceptLast (env : Env) :
    ∀ fuel i, cleanExceptLast (loop env i fuel).1 = true := by
  intro fuel
  induction fuel with
  | zero => intro i; simp [loop, cleanExceptLast]
  | succ n ih =>
    intro i
    cases hs : env.sendOutcome i with
    | some f => simp [loop, hs, cleanExceptLast]
    | none =>
      cases hr : env.recvOutcome i with
      | fail f => simp [loop, hs, hr, cleanExceptLast, failedAction]
      | pending => simp [loop, hs, hr, cleanExceptLast, failedAction]
      | ok s =>
        simp only [loop, hs, hr]
        rw [cleanExceptLast_cons _ _ (by simp [failedAction]),
            cleanExceptLast_cons _ _ (by simp [failedAction]),
            cleanExceptLast_cons _ _ (by simp [failedAction]),
            cleanExceptLast_cons _ _ (by simp [failedAction])]
        exact ih (i + 1)

/-- If every send and every receive succeeds, any stretch of the loop uses
all its fuel, performing one successful send (and four actions) per
iteration, and is still running when the fuel runs out. -/
lemma loop_forever (env : Env)
    (hsend : ∀ j, env.sendOutcome j = none)
    (hrecv : ∀ j, ∃ s, env.recvOutcome j = .ok s) :
    ∀ fuel i,
      (loop env i fuel).2 = .running ∧
      (loop env i fuel).1.length = 4 * fuel ∧
      countWireSendOk (loop env i fuel).1 = fuel := by
  intro fuel
  induction fuel with
  | zero => intro i; simp [loop, countWireSendOk]
  | succ n ih =>
    intro i
    obtain ⟨s, hr⟩ := hrecv i
    obtain ⟨h1, h2, h3⟩ := ih (i + 1)
    refine ⟨?_, ?_, ?_⟩ <;>
      simp [loop, hsend i, hr, countWireSendOk, h1, h2, h3, Nat.mul_succ]

/-- In any stretch of the loop, sent-log lines and successful wire sends
are in bijection, as are received-log lines and successful wire receives. -/
lemma loop_counts (env : Env) :
    ∀ fuel i,
      countLogSent (loop env i fuel).1 = countWireSendOk (loop env i fuel).1 ∧
      countLogReceived (loop env i fuel).1 =
        countWireRecvOk (loop env i fuel).1 := by
  intro fuel
  induction fuel with
  | zero =>
    intro i
    simp [loop, countLogSent, countWireSendOk, countLogReceived, countWireRecvOk]
  | succ n ih =>
    intro i
    obtain ⟨h1, h2⟩ := ih (i + 1)
    cases hs : env.sendOutcome i with
    | some f =>
      simp [loop, hs, countLogSent, countWireSendOk, countLogReceived,
        countWireRecvOk]
    | none =>
      cases hr : env.recvOutcome i with
      | fail f =>
        simp [loop, hs, hr, countLogSent, countWireSendOk, countLogReceived,
          countWireRecvOk]
      | pending =>
        simp [loop, hs, hr, countLogSent, countWireSendOk, countLogReceived,
          countWireRecvOk]
      | ok s =>
        simp [loop, hs, hr, countLogSent, countWireSendOk, countLogReceived,
          countWireRecvOk, h1, h2]

/-- The loop depends on the environment only through the outcomes the peer
produces: pointwise equal outcomes give identical runs. -/
lemma loop_ext (e1 e2 : Env)
    (hsend : ∀ j, e1.sendOutcome j = e2.sendOutcome j)
    (hrecv : ∀ j, e1.recvOutcome j = e2.recvOutcome j) :
    ∀ fuel i, loop e1 i fuel = loop e2 i fuel := by
  intro fuel
  induction fuel with
  | zero => intro i; simp [loop]
  | succ n ih =>
    intro i
    cases hs : e2.sendOutcome i with
    | some f => simp [loop, hsend i, hs]
    | none =>
      cases hr : e2.recvOutcome i with
      | fail f => simp [loop, hsend i, hrecv i, hs, hr]
      | pending => simp [loop, hsend i, hrecv i, hs, hr]
      | ok s => simp [loop, hsend i, hrecv i, hs, hr, ih (i + 1)]

/-- Claim C1: in every run of `root` the logged events strictly alternate
starting with a sent event, and the wire operations strictly alternate
starting with a send, so send N precedes receive N, receive N precedes
send N+1, and no two sent or two received events are consecutive. -/
theorem root_alternation (env : Env) (fuel : Nat) :
    alt Kind.s (logKinds (root env fuel).1) = true ∧
    alt Kind.s (wireKinds (root env fuel).1) = true := by
  cases ha : env.acceptOk with
  | false => simp [root, ha, logKinds, wireKinds, alt]
  | true =>
    exact ⟨by simpa [root, ha] using loop_logKinds_alt env fuel 0,
           by simpa [root, ha] using loop_wireKinds_alt env fuel 0⟩

/-- Claim C2: every message sent on the connection and every sent-log line,
in every iteration of every run, carries the literal text `"Hello!"`. -/
theorem root_fixed_greeting (env : Env) (fuel : Nat) :
    ((sentContents (root env fuel).1).all fun x => x == "Hello!") = true := by
  cases ha : env.acceptOk with
  | false => simp [root, ha, sentContents]
  | true => simpa [root, ha] using loop_sentContents_hello env fuel 0

/-- Claim C3: the k-th received-log line of a run equals, with no
transformation, exactly the text the peer delivered at turn k. -/
theorem root_content_fidelity (env : Env) (fuel k : Nat) (s : String)
    (h : (recvLogContents (root env fuel).1).get? k = some s) :
    env.recvOutcome k = RecvRes.ok s := by
  cases ha : env.acceptOk with
  | false => simp [root, ha, recvLogContents] at h
  | true =>
    simpa using loop_recvLog_fidelity env fuel 0 k s (by simpa [root, ha] using h)

/-- Instance of the content-fidelity theorem on a concrete run. -/
theorem root_content_fidelity_witness :
    envAll.recvOutcome 0 = RecvRes.ok "ping" :=
  root_content_fidelity envAll 1 0 "ping" rfl

/-- Claim C4: if the accept handshake fails, the handler stops before the
loop: the trace is empty, so there are zero sends, zero receives and zero
log events. -/
theorem root_handshake_isolation (env : Env) (fuel : Nat)
    (h : env.acceptOk = false) :
    (root env fuel).1 = [] ∧ (root env fuel).2 = Outcome.handshakeFailed := by
  simp [root, h]

/-- Instance of the handshake-isolation theorem on a concrete run. -/
theorem root_handshake_isolation_witness :
    (root envRejected 5).1 = [] ∧
    (root envRejected 5).2 = Outcome.handshakeFailed :=
  root_handshake_isolation envRejected 5 rfl

/-- Claim C5: a failed send or receive (peer close included) terminates the
handler permanently: a failed wire operation can only be the final action
of the trace, so it is never retried and no send, receive or log event
follows it. -/
theorem root_failure_terminal (env : Env) (fuel : Nat) :
    cleanExceptLast (root env fuel).1 = true := by
  cases ha : env.acceptOk with
  | false => simp [root, ha, cleanExceptLast]
  | true => simpa [root, ha] using loop_cleanExceptLast env fuel 0

/-- Claim C6: on the success path the handler never returns: with every
send and receive succeeding, every fuel budget is consumed in full — the
run is still in state running, has performed exactly `fuel` successful
sends and four actions per iteration, for every `fuel`, so no bounded
iteration count exists. -/
theorem root_runs_forever (env : Env)
    (ha : env.acceptOk = true)
    (hsend : ∀ j, env.sendOutcome j = none)
    (hrecv : ∀ j, ∃ s, env.recvOutcome j = RecvRes.ok s)
    (fuel : Nat) :
    (root env fuel).2 = Outcome.running ∧
    (root env fuel).1.length = 4 * fuel ∧
    countWireSendOk (root env fuel).1 = fuel := by
  simpa [root, ha] using loop_forever env hsend hrecv fuel 0

/-- Instance of the runs-forever theorem on a concrete run. -/
theorem root_runs_forever_witness :
    (root envAll 3).2 = Outcome.running ∧
    (root envAll 3).1.length = 4 * 3 ∧
    countWireSendOk (root envAll 3).1 = 3 :=
  root_runs_forever envAll rfl (fun _ => rfl) (fun _ => ⟨"ping", rfl⟩) 3

/-- Claim C8: every successful send is logged exactly once and every
successful receive is logged exactly once: sent-log lines are in bijection
with successful wire sends, received-log lines with successful wire
receives, and the trace contains no other effects. -/
theorem root_log_pairing (env : Env) (fuel : Nat) :
    countLogSent (root env fuel).1 = countWireSendOk (root env fuel).1 ∧
    countLogReceived (root env fuel).1 = countWireRecvOk (root env fuel).1 := by
  cases ha : env.acceptOk with
  | false =>
    simp [root, ha, countLogSent, countWireSendOk, countLogReceived,
      countWireRecvOk]
  | true => simpa [root, ha] using loop_counts env fuel 0

/-- Claim C9: after a successful accept the first wire operation is always
the send of `"Hello!"` — no receive is attempted before it — and a peer
that never sends anything leaves the handler suspended on the first
receive, with exactly one send performed, for every fuel budget. -/
theorem root_send_first (env : Env) (fuel : Nat)
    (ha : env.acceptOk = true) (hf : 0 < fuel) :
    (root env fuel).1.head? =
      some (Act.wireSend "Hello!" (env.sendOutcome 0)) ∧
    (env.sendOutcome 0 = none → env.recvOutcome 0 = RecvRes.pending →
      root env fuel =
        ([Act.wireSend "Hello!" none, Act.logSent "Hello!",
          Act.wireRecv RecvRes.pending], Outcome.waitingRecv)) := by
  cases fuel with
  | zero => omega
  | succ n =>
    constructor
    · cases hs : env.sendOutcome 0 with
      | some f => simp [root, ha, loop, hs]
      | none =>
        cases hr : env.recvOutcome 0 with
        | fail f => simp [root, ha, loop, hs, hr]
        | pending => simp [root, ha, loop, hs, hr]
        | ok s => simp [root, ha, loop, hs, hr]
    · intro h0 hp
      simp [root, ha, loop, h0, hp]

/-- Instance of the send-first theorem on a concrete silent peer. -/
theorem root_send_first_witness :
    (root envSilent 3).1.head? =
      some (Act.wireSend "Hello!" (envSilent.sendOutcome 0)) ∧
    root envSilent 3 =
      ([Act.wireSend "Hello!" none, Act.logSent "Hello!",
        Act.wireRecv RecvRes.pending], Outcome.waitingRecv) :=
  ⟨(root_send_first envSilent 3 rfl (by decide)).1,
   (root_send_first envSilent 3 rfl (by decide)).2 rfl rfl⟩

/-- Claim C10: the handler is deterministic: two environments in which the
peer produces the same handshake outcome and, turn for turn, the same
delivered messages and the same close/error outcomes, give identical
traces and identical final statuses. -/
theorem root_deterministic (e1 e2 : Env) (fuel : Nat)
    (ha : e1.acceptOk = e2.acceptOk)
    (hsend : ∀ j, e1.sendOutcome j = e2.sendOutcome j)
    (hrecv : ∀ j, e1.recvOutcome j = e2.recvOutcome j) :
    root e1 fuel = root e2 fuel := by
  unfold root
  rw [ha, loop_ext e1 e2 hsend hrecv fuel 0]

/-- Instance of the determinism theorem on two concrete environments. -/
theorem root_deterministic_witness :
    root envAll 2 = root envAllB 2 :=
  root_deterministic envAll envAllB 2 rfl
    (fun j => by simp [envAll, envAllB])
    (fun j => by simp [envAll, envAllB])
